import Mathlib

/-!
# termban task store (`internal/termban/db.go`)

A shallow embedding of the six functions of `db.go` (`newDBHandler`, `openDB`,
`insertTask`, `getTasks`, `updateTask`, `deleteTask`) and of the part of
`database/sql` + SQLite they drive.

The Go functions are thin: every effect happens inside a call into the
operating system, `database/sql` or the SQLite driver.  Those calls are
modelled here as follows.

* The persistent content reachable through a `*sql.DB` is a value of `DB`: the
  rows of table `tasks` in rowid order, and the counter SQLite keeps for the
  `AUTOINCREMENT` key of that table (its `sqlite_sequence` entry).
* Each SQL statement of the source has a function giving its effect on `DB`
  (`sqlInsert`, `sqlUpdate`, `sqlDelete`, `sqlCreateTable`, `DB.Query`).
* Every external call returns a Go `error`.  Whether it does so in one
  particular call of a Go function is an input of the model: `Faults` lists, per
  external call, the error it reports (or `none`).
* Logging (`db.log.Debug`, `db.log.Error`) has no effect on the store and no
  effect on results; it is left out.
-/

namespace Termban

/-! ## Go errors -/

/-- Values of Go's `error` interface that the functions of `db.go` can return:
errors made outside the package, and errors made by `fmt.Errorf` with a `%w` verb. -/
inductive Err where
  /-- an error produced by the operating system, `database/sql` or the driver -/
  | base (msg : String)
  /-- the error `fmt.Errorf(msg + ": %w", cause)` with a non-nil `cause` -/
  | wrap (msg : String) (cause : Err)
  /-- the error `fmt.Errorf(msg + ": %w", nil)`: the text ends in `%!w(<nil>)`, nothing is wrapped -/
  | wrapNil (msg : String)
  deriving DecidableEq, Repr

/-- Go `fmt.Errorf(msg + ": %w", err)` for an operand `err` of type `error`
(`none` is the nil error). -/
def Errorf (msg : String) : Option Err → Err
  | some e => Err.wrap msg e
  | none => Err.wrapNil msg

/-- Go `errors.Unwrap`. -/
def Err.Unwrap : Err → Option Err
  | Err.wrap _ c => some c
  | _ => none

/-- The errors reached from `e` by repeated `errors.Unwrap`, `e` first. -/
def Err.chain : Err → List Err
  | Err.base m => [Err.base m]
  | Err.wrap m c => Err.wrap m c :: c.chain
  | Err.wrapNil m => [Err.wrapNil m]

/-- Go `errors.Is(e, cause)`: `cause` is `e` or an underlying cause of `e`. -/
def Err.carries (e cause : Err) : Bool := decide (cause ∈ e.chain)

/-! ## Data model -/

/-- Modelled from the spec: the declaration of struct `task` is not in `db.go`.
The four fields are those `db.go` reads and writes (`task.id`, `task.title`,
`task.desc`, `task.status`); `id` is a Go `int` (`deleteTask(id int)`), `status`
an integer code. -/
structure task where
  id : Int
  title : String
  desc : String
  status : Int
  deriving DecidableEq, Repr

/-- A value stored in one column of one row (SQLite storage classes, as the
driver hands them to `database/sql`).  A byte sequence is written as a `String`;
a `REAL` is identified by the text `strconv.FormatFloat(x, 'g', -1, 64)` gives for it. -/
inductive Value where
  | null
  | integer (i : Int)
  | real (fmt : String)
  | text (s : String)
  | blob (b : String)
  deriving DecidableEq, Repr

/-- One row of table `tasks (id INTEGER PRIMARY KEY AUTOINCREMENT, title TEXT,
description TEXT, status INTEGER)`.  `id` is the rowid: always an integer, never NULL. -/
structure Row where
  id : Int
  title : Value
  description : Value
  status : Value
  deriving DecidableEq, Repr

/-- The database behind a `*sql.DB` whose table `tasks` exists. -/
structure DB where
  /-- rows of `tasks`, in the order `SELECT * FROM tasks` iterates -/
  rows : List Row
  /-- largest rowid ever given out by `AUTOINCREMENT` for `tasks` (0 when none was) -/
  seq : Int
  deriving DecidableEq, Repr

/-- Go `type dbHandler struct { log *slog.Logger; *sql.DB }`, without the logger. -/
structure dbHandler where
  DB : DB
  deriving DecidableEq, Repr

/-- The failures injected into one call of a function of `db.go`: for each external
call the function makes, the error that call reports (`none`: it succeeds). -/
structure Faults where
  /-- `user.Current()` -/
  userErr : Option Err
  /-- `os.MkdirAll(dbFolder, 0755)` -/
  mkdirErr : Option Err
  /-- `sql.Open("sqlite3", ...)` -/
  openErr : Option Err
  /-- `db.Exec(...)`, `stmt.Exec(...)`: a failure not caused by the content of the database -/
  execErr : Option Err
  /-- `db.Close()` -/
  closeErr : Option Err
  /-- `db.Prepare(...)` -/
  prepareErr : Option Err
  /-- `db.Query(...)` -/
  queryErr : Option Err
  /-- `rows.Next()`: `some (k, e)` when fetching the row after `k` delivered rows fails with `e` -/
  stepErr : Option (Nat × Err)
  /-- `rows.Close()` -/
  rowsCloseErr : Option Err
  deriving DecidableEq, Repr

/-- No external call fails. -/
def Faults.healthy : Faults :=
  ⟨Option.none, Option.none, Option.none, Option.none, Option.none, Option.none, Option.none,
    Option.none, Option.none⟩

/-! ## SQLite: the statements of `db.go` -/

/-- Largest rowid SQLite can give out, `0x7fffffffffffffff`. -/
def MAX_ROWID : Int := 9223372036854775807

/-- Largest rowid present in the table (`sqlite3BtreeLast`), `none` for an empty table. -/
def maxRowid : List Row → Option Int
  | [] => Option.none
  | r :: rs =>
    match maxRowid rs with
    | Option.none => some r.id
    | some m => some (max r.id m)

/-- The rowid `OP_NewRowid` picks for an `AUTOINCREMENT` table, `none` for `SQLITE_FULL`:
one more than the largest rowid in the table (1 for an empty table), raised to `seq + 1`
when that is larger; the insert fails when `seq` or the largest rowid is `MAX_ROWID`. -/
def newRowid (db : DB) : Option Int :=
  let v0 : Option Int :=
    match maxRowid db.rows with
    | Option.none => some 1
    | some m => if m ≥ MAX_ROWID then Option.none else some (m + 1)
  match v0 with
  | Option.none => Option.none
  | some v => if db.seq = MAX_ROWID then Option.none
              else if v < db.seq + 1 then some (db.seq + 1) else some v

/-- `INSERT INTO tasks(title, description, status) VALUES(?, ?, ?)` with a Go string,
a Go string and a Go int bound: a row with a new rowid is added after the others and
the sequence counter becomes that rowid. -/
def sqlInsert (db : DB) (title desc : String) (status : Int) : Except Err DB :=
  match newRowid db with
  | Option.none => Except.error (Err.base "database or disk is full")
  | some v =>
    Except.ok
      { rows := db.rows ++ [Row.mk v (Value.text title) (Value.text desc) (Value.integer status)],
        seq := v }

/-- `UPDATE tasks SET title=?, description=?, status=? WHERE id=?`. -/
def sqlUpdate (db : DB) (title desc : String) (status : Int) (id : Int) : DB :=
  { db with
    rows := db.rows.map fun r =>
      if r.id = id then Row.mk r.id (Value.text title) (Value.text desc) (Value.integer status)
      else r }

/-- `DELETE FROM tasks WHERE id=?`. -/
def sqlDelete (db : DB) (id : Int) : DB :=
  { db with rows := db.rows.filter fun r => decide (r.id ≠ id) }

/-- `CREATE TABLE IF NOT EXISTS tasks (...)` on a database file in which table `tasks`
is absent (`none`) or present. -/
def sqlCreateTable : Option DB → DB
  | Option.none => { rows := [], seq := 0 }
  | some db => db

/-! ## `database/sql`: statements, cursors and `Scan` -/

/-- Go `stmt.Exec(...)` / `db.Exec(...)`: the statement's own outcome `r`, unless the
call fails for an outside reason. -/
def Exec {α : Type} (f : Faults) (r : Except Err α) : Except Err α :=
  match f.execErr with
  | some e => Except.error e
  | Option.none => r

/-- Go `strconv.ParseInt(s, 10, 64)`, `none` for a syntax or range error: an optional
sign, then one or more decimal digits, the value within the range of `int64`. -/
def ParseInt (s : String) : Option Int :=
  let signed : Bool × List Char :=
    match s.toList with
    | '+' :: r => (false, r)
    | '-' :: r => (true, r)
    | r => (false, r)
  let ds := signed.2
  if ds.isEmpty || !(ds.all Char.isDigit) then Option.none
  else
    let un : Nat := ds.foldl (fun n c => 10 * n + (c.toNat - 48)) 0
    if signed.1 then (if un > 2 ^ 63 then Option.none else some (-(un : Int)))
    else (if un ≥ 2 ^ 63 then Option.none else some (un : Int))

/-- Go `convertAssign(dest, src)` of `database/sql` for a destination of type `*string`. -/
def scanString : Value → Except Err String
  | Value.null => Except.error (Err.base "converting NULL to string is unsupported")
  | Value.integer i => Except.ok (toString i)
  | Value.real x => Except.ok x
  | Value.text s => Except.ok s
  | Value.blob b => Except.ok b

/-- The integer branch of `convertAssign`: `strconv.ParseInt(asString(src), 10, 64)`. -/
def scanParsed (s : String) : Except Err Int :=
  match ParseInt s with
  | some i => Except.ok i
  | Option.none => Except.error (Err.base "converting driver.Value to a int: invalid syntax")

/-- Go `convertAssign(dest, src)` of `database/sql` for a destination of kind `int`.
An `int64` goes through `asString` and `ParseInt`, which give it back. -/
def scanInt : Value → Except Err Int
  | Value.null => Except.error (Err.base "converting NULL to int is unsupported")
  | Value.integer i => Except.ok i
  | Value.real x => scanParsed x
  | Value.text s => scanParsed s
  | Value.blob b => scanParsed b

/-- Decoding of one row by `rows.Scan(&task.id, &task.title, &task.desc, &task.status)`:
the columns are converted in order and the first failure is wrapped with its column. -/
def scanRow (r : Row) : Except Err task :=
  match scanString r.title with
  | Except.error e => Except.error (Err.wrap "sql: Scan error on column index 1, name title" e)
  | Except.ok title =>
    match scanString r.description with
    | Except.error e =>
      Except.error (Err.wrap "sql: Scan error on column index 2, name description" e)
    | Except.ok desc =>
      match scanInt r.status with
      | Except.error e =>
        Except.error (Err.wrap "sql: Scan error on column index 3, name status" e)
      | Except.ok status => Except.ok (task.mk r.id title desc status)

/-- Go `*sql.Rows`: the cursor over the result of `SELECT * FROM tasks`. -/
structure Rows where
  /-- rows the statement has not produced yet -/
  pending : List Row
  /-- number of rows produced so far -/
  delivered : Nat
  /-- the step that fails, if one does (`Faults.stepErr`) -/
  stepErr : Option (Nat × Err)
  /-- what the driver answers when the cursor is closed (`Faults.rowsCloseErr`) -/
  closeErr : Option Err
  /-- the row `Scan` reads, set by `Next` -/
  current : Option Row
  closed : Bool
  /-- the error `rows.Err()` would report -/
  lasterr : Option Err
  deriving DecidableEq, Repr

/-- Go `db.Query("SELECT * FROM tasks")`. -/
def DB.Query (f : Faults) (db : DB) : Except Err Rows :=
  match f.queryErr with
  | some e => Except.error e
  | Option.none =>
    Except.ok
      { pending := db.rows, delivered := 0, stepErr := f.stepErr, closeErr := f.rowsCloseErr,
        current := Option.none, closed := false, lasterr := Option.none }

/-- Whether the step after `delivered` rows is the failing one. -/
def Rows.stepFails (rs : Rows) : Option Err :=
  match rs.stepErr with
  | some (k, e) => if k = rs.delivered then some e else Option.none
  | Option.none => Option.none

/-- Go `rows.Next()`: `false` on a closed cursor; `false`, closing the cursor and
keeping the error for `rows.Err()`, when the step fails; `false`, closing the cursor,
when no row is left; otherwise `true` with the next row ready for `Scan`. -/
def Rows.Next (rs : Rows) : Bool × Rows :=
  if rs.closed then (false, rs)
  else
    match rs.stepFails with
    | some e => (false, { rs with closed := true, lasterr := some e })
    | Option.none =>
      match rs.pending with
      | [] => (false, { rs with closed := true })
      | r :: rest =>
        (true, { rs with pending := rest, delivered := rs.delivered + 1, current := some r })

/-- Go `rows.Scan(&task.id, &task.title, &task.desc, &task.status)`. -/
def Rows.Scan (rs : Rows) : Except Err task :=
  if rs.closed then Except.error (Err.base "sql: Rows are closed")
  else
    match rs.current with
    | Option.none => Except.error (Err.base "sql: Scan called without calling Next")
    | some r => scanRow r

/-- Go `rows.Close()`: nil on a cursor already closed, else the cursor is closed and the
driver's answer returned. -/
def Rows.Close (rs : Rows) : Option Err × Rows :=
  if rs.closed then (Option.none, rs) else (rs.closeErr, { rs with closed := true })

/-! ## The functions of `db.go` -/

/-- Result of `openDB`, with what the call left behind. -/
inductive Handle where
  /-- `sql.Open` was not reached or failed: there is no handle -/
  | notOpened
  /-- the handle made by `sql.Open` is open -/
  | opened
  /-- `Close` was called on the handle made by `sql.Open` -/
  | closed
  deriving DecidableEq, Repr

/-- What one call of `openDB` returns and leaves behind. -/
structure OpenOut where
  /-- the returned `*sql.DB` (`none`: nil), as the database it gives access to -/
  db : Option DB
  /-- the returned `error` -/
  err : Option Err
  /-- table `tasks` of the database file after the call (`none`: no such table) -/
  file : Option DB
  /-- state of the handle `sql.Open` made -/
  handle : Handle
  deriving DecidableEq, Repr

/-- Go `openDB`, run against a database file whose table `tasks` is `file`. -/
def openDB (f : Faults) (file : Option DB) : OpenOut :=
  match f.userErr with
  | some err => ⟨Option.none, some (Errorf "could not get current user" (some err)), file,
      Handle.notOpened⟩
  | Option.none =>
    match f.mkdirErr with
    | some err => ⟨Option.none, some (Errorf "could not create db folder" (some err)), file,
        Handle.notOpened⟩
    | Option.none =>
      match f.openErr with
      | some err => ⟨Option.none, some (Errorf "error opening db" (some err)), file,
          Handle.notOpened⟩
      | Option.none =>
        match Exec f (Except.ok (sqlCreateTable file)) with
        | Except.error _ =>
          -- `err := db.Close()` declares a new `err` for the rest of this block
          let err : Option Err := f.closeErr
          match err with
          | some _ => ⟨Option.none, some (Errorf "could not close db" err), file, Handle.closed⟩
          | Option.none => ⟨Option.none, some (Errorf "could not exec db" err), file, Handle.closed⟩
        | Except.ok db => ⟨some db, Option.none, some db, Handle.opened⟩

/-- What one call of `newDBHandler` returns and leaves behind. -/
structure NewOut where
  handler : Option dbHandler
  err : Option Err
  file : Option DB
  handle : Handle
  deriving DecidableEq, Repr

/-- Go `newDBHandler`. -/
def newDBHandler (f : Faults) (file : Option DB) : NewOut :=
  let r := openDB f file
  match r.err with
  | some err => ⟨Option.none, some (Errorf "OpenDB" (some err)), r.file, r.handle⟩
  | Option.none => ⟨r.db.map dbHandler.mk, r.err, r.file, r.handle⟩

/-- Go `(*dbHandler).insertTask`: the returned error and the handler afterwards. -/
def insertTask (f : Faults) (db : dbHandler) (t : task) : Option Err × dbHandler :=
  match f.prepareErr with
  | some err => (some (Errorf "could not prepare statement" (some err)), db)
  | Option.none =>
    match Exec f (sqlInsert db.DB t.title t.desc t.status) with
    | Except.error err => (some (Errorf "could not exec statement" (some err)), db)
    | Except.ok d => (Option.none, ⟨d⟩)

/-- The loop `for rows.Next() { ... }` of `getTasks` with its two exits: the `return nil, ...`
inside the loop and the `return tasks, nil` after it.  `rows.Err()` is not consulted. -/
def getTasks.loop (rows : Rows) (tasks : List task) : (List task × Option Err) × Rows :=
  if _h : rows.Next.1 = true then
    match rows.Next.2.Scan with
    | Except.error err => (([], some (Errorf "rows.Scan" (some err))), rows.Next.2)
    | Except.ok t => getTasks.loop rows.Next.2 (tasks ++ [t])
  else ((tasks, Option.none), rows.Next.2)
termination_by rows.pending.length
decreasing_by
  have h : rows.Next.1 = true := _h
  unfold Rows.Next at h ⊢
  by_cases hc : rows.closed = true
  · simp [hc] at h
  · cases hs : rows.stepFails with
    | some e => simp [hc, hs] at h
    | none =>
      cases hp : rows.pending with
      | nil => simp [hc, hs, hp] at h
      | cons r rest => simp [hc, hs, hp]

/-- What one call of `getTasks` returns and leaves behind. -/
structure GetOut where
  /-- the returned slice (the nil slice is `[]`) -/
  tasks : List task
  /-- the returned `error` -/
  err : Option Err
  /-- the cursor as the call leaves it (`none`: `db.Query` did not make one) -/
  rows : Option Rows
  /-- the handler afterwards -/
  db : dbHandler
  deriving DecidableEq, Repr

/-- Go `(*dbHandler).getTasks`.  The deferred function runs `rows.Close()` on every
return after `db.Query` succeeded; its error is only logged. -/
def getTasks (f : Faults) (db : dbHandler) : GetOut :=
  match DB.Query f db.DB with
  | Except.error err => ⟨[], some (Errorf "db.Query" (some err)), Option.none, db⟩
  | Except.ok rows =>
    let r := getTasks.loop rows []
    ⟨r.1.1, r.1.2, some r.2.Close.2, db⟩

/-- Go `(*dbHandler).updateTask`: the returned error and the handler afterwards. -/
def updateTask (f : Faults) (db : dbHandler) (t : task) : Option Err × dbHandler :=
  match f.prepareErr with
  | some err => (some (Errorf "could not prepare statement" (some err)), db)
  | Option.none =>
    match Exec f (Except.ok (sqlUpdate db.DB t.title t.desc t.status t.id)) with
    | Except.error err => (some (Errorf "could not exec statement" (some err)), db)
    | Except.ok d => (Option.none, ⟨d⟩)

/-- Go `(*dbHandler).deleteTask`: the returned error and the handler afterwards. -/
def deleteTask (f : Faults) (db : dbHandler) (id : Int) : Option Err × dbHandler :=
  match f.prepareErr with
  | some err => (some (Errorf "could not prepare statement" (some err)), db)
  | Option.none =>
    match Exec f (Except.ok (sqlDelete db.DB id)) with
    | Except.error err => (some (Errorf "could not exec statement" (some err)), db)
    | Except.ok d => (Option.none, ⟨d⟩)

/-! ## Auxiliary definitions for the statements -/

/-- Outcome of the loop of `getTasks` written by recursion on the rows still to come:
`k` rows were delivered, `acc` holds their tasks. -/
def loopResult (stepErr : Option (Nat × Err)) : Nat → List Row → List task → List task × Option Err
  | _, [], acc => (acc, Option.none)
  | k, r :: rest, acc =>
    match (match stepErr with
      | some (j, e) => if j = k then some e else Option.none
      | Option.none => Option.none) with
    | some _ => (acc, Option.none)
    | Option.none =>
      match scanRow r with
      | Except.error err => ([], some (Errorf "rows.Scan" (some err)))
      | Except.ok t => loopResult stepErr (k + 1) rest (acc ++ [t])

/-- The tasks decoded from a list of rows in order, or the failure of the first row
that `Scan` cannot decode. -/
def scanAll : List Row → Except Err (List task)
  | [] => Except.ok []
  | r :: rest =>
    match scanRow r with
    | Except.error err => Except.error err
    | Except.ok t =>
      match scanAll rest with
      | Except.error err => Except.error err
      | Except.ok ts => Except.ok (t :: ts)

/-- A run in which the only failing external call is the step of the cursor after one
delivered row (`rows.Next()` returns false there and `rows.Err()` holds the error). -/
def stepFailsAfterOne : Faults :=
  { Faults.healthy with stepErr := some (1, Err.base "database is locked") }

/-- A handler whose table holds two decodable rows. -/
def twoRows : dbHandler :=
  ⟨{ rows := [Row.mk 1 (Value.text "Buy milk") (Value.text "2%") (Value.integer 0),
              Row.mk 2 (Value.text "Call Ann") (Value.text "") (Value.integer 1)],
     seq := 2 }⟩

/-- A run of `openDB` in which `user.Current`, `os.MkdirAll`, `sql.Open` and `db.Close`
succeed and `db.Exec` of the schema statement fails with `e`. -/
def schemaFails (e : Err) : Faults :=
  { Faults.healthy with execErr := some e }

/-- One call of a mutating function of `db.go`, with the outcome of its external calls. -/
inductive Call where
  | insert (f : Faults) (T : task)
  | update (f : Faults) (T : task)
  | delete (f : Faults) (id : Int)
  deriving Repr

/-- A handler together with the ids its table has given to new rows so far, oldest first. -/
structure Trace where
  db : dbHandler
  assigned : List Int
  deriving Repr

/-- One call made on a trace.  After `insertTask`, the ids of the rows that are in the table
and were not in it before the call are added to the ids given out. -/
def Trace.step (s : Trace) : Call → Trace
  | Call.insert f T =>
    let after := (insertTask f s.db T).2
    ⟨after, s.assigned ++
      (after.DB.rows.map Row.id).filter (fun i => decide (i ∉ s.db.DB.rows.map Row.id))⟩
  | Call.update f T => ⟨(updateTask f s.db T).2, s.assigned⟩
  | Call.delete f id => ⟨(deleteTask f s.db id).2, s.assigned⟩

/-- The calls made in order on the handler `db0`. -/
def run (db0 : dbHandler) (calls : List Call) : Trace :=
  calls.foldl Trace.step ⟨db0, []⟩

/-- What every trace started on a new table satisfies: the sequence counter is not negative,
the ids of the rows increase strictly along the table, every row id is positive and was
given out, the ids given out increase strictly, are positive and at most the counter. -/
def Trace.Inv (s : Trace) : Prop :=
  0 ≤ s.db.DB.seq ∧
  (s.db.DB.rows.map Row.id).Pairwise (· < ·) ∧
  (∀ r ∈ s.db.DB.rows, 0 < r.id ∧ r.id ∈ s.assigned) ∧
  s.assigned.Pairwise (· < ·) ∧
  (∀ a ∈ s.assigned, 0 < a ∧ a ≤ s.db.DB.seq)

/-- The handler of a database whose table `tasks` has just been created. -/
def emptyHandler : dbHandler := ⟨{ rows := [], seq := 0 }⟩

/-- A task as the caller builds it before insertion. -/
def milk : task := task.mk 0 "Buy milk" "2%" 0

/-- Three insertions with one deletion in between, no external call failing. -/
def sampleCalls : List Call :=
  [Call.insert Faults.healthy milk, Call.insert Faults.healthy milk,
   Call.delete Faults.healthy 2, Call.insert Faults.healthy milk]

/-- A handler whose second row has NULL in column `title`. -/
def nullTitle : dbHandler :=
  ⟨{ rows := [Row.mk 1 (Value.text "Buy milk") (Value.text "2%") (Value.integer 0),
              Row.mk 2 Value.null (Value.text "") (Value.integer 1),
              Row.mk 3 (Value.text "Call Ann") (Value.text "") (Value.integer 1)],
     seq := 3 }⟩

/-! ## Lemmas on the cursor loop -/

theorem getTasks.loop_fst (l : List Row) :
    ∀ (rs : Rows) (acc : List task), rs.pending = l → rs.closed = false →
      (getTasks.loop rs acc).1 = loopResult rs.stepErr rs.delivered l acc := by
  induction l with
  | nil =>
    intro rs acc hp hc
    rw [getTasks.loop]
    cases hs : rs.stepFails <;> simp [Rows.Next, hc, hs, hp, loopResult]
  | cons r rest ih =>
    intro rs acc hp hc
    rw [getTasks.loop]
    cases hs : rs.stepFails with
    | some e =>
      have hs2 := hs
      unfold Rows.stepFails at hs2
      simp [Rows.Next, hc, hs, loopResult]
      split <;> simp_all
    | none =>
      have hs2 := hs
      unfold Rows.stepFails at hs2
      have hstep : (match rs.stepErr with
          | some (j, e) => if j = rs.delivered then some e else Option.none
          | Option.none => Option.none) = Option.none := hs2
      simp only [Rows.Next, hc, hs, hp, loopResult, hstep, Rows.Scan]
      simp only [Bool.false_eq_true, ↓reduceIte, ↓reduceDIte]
      cases hr : scanRow r with
      | error err => simp
      | ok t =>
        simp only []
        exact ih _ _ rfl rfl

theorem getTasks.loop_done (rs : Rows) (acc : List task) (h : rs.Next.1 = false) :
    getTasks.loop rs acc = ((acc, Option.none), rs.Next.2) := by
  rw [getTasks.loop]
  simp [h]

theorem getTasks.loop_next (rs : Rows) (acc : List task) (t : task) (h : rs.Next.1 = true)
    (hs : rs.Next.2.Scan = Except.ok t) :
    getTasks.loop rs acc = getTasks.loop rs.Next.2 (acc ++ [t]) := by
  rw [getTasks.loop]
  simp [h, hs]

theorem Rows.Close_closed (rs : Rows) : rs.Close.2.closed = true := by
  unfold Rows.Close
  by_cases h : rs.closed = true <;> simp [h]

theorem getTasks_of_query (f : Faults) (db : dbHandler) (hq : f.queryErr = Option.none) :
    (getTasks f db).tasks = (loopResult f.stepErr 0 db.DB.rows []).1 ∧
    (getTasks f db).err = (loopResult f.stepErr 0 db.DB.rows []).2 ∧
    ∃ rs, (getTasks f db).rows = some rs ∧ rs.closed = true := by
  have h := getTasks.loop_fst db.DB.rows
    { pending := db.DB.rows, delivered := 0, stepErr := f.stepErr, closeErr := f.rowsCloseErr,
      current := Option.none, closed := false, lasterr := Option.none } [] rfl rfl
  simp only [getTasks, DB.Query, hq]
  refine ⟨by rw [h], by rw [h], _, rfl, Rows.Close_closed _⟩

theorem loopResult_scanAll (l : List Row) :
    ∀ (k : Nat) (acc : List task),
      loopResult Option.none k l acc =
        match scanAll l with
        | Except.ok ts => (acc ++ ts, Option.none)
        | Except.error err => ([], some (Errorf "rows.Scan" (some err))) := by
  induction l with
  | nil => intro k acc; simp [loopResult, scanAll]
  | cons r rest ih =>
    intro k acc
    simp only [loopResult, scanAll]
    cases hr : scanRow r with
    | error err => simp
    | ok t =>
      simp only [ih]
      cases hs : scanAll rest with
      | error err => simp
      | ok ts => simp

/-- With a cursor that is made and whose steps all succeed, `getTasks` returns the decoded
rows, or the wrapped failure of the first row that cannot be decoded. -/
theorem getTasks_scanAll (f : Faults) (db : dbHandler) (hq : f.queryErr = Option.none)
    (hs : f.stepErr = Option.none) :
    ((getTasks f db).tasks, (getTasks f db).err) =
      match scanAll db.DB.rows with
      | Except.ok ts => (ts, Option.none)
      | Except.error err => ([], some (Errorf "rows.Scan" (some err))) := by
  obtain ⟨h1, h2, _⟩ := getTasks_of_query f db hq
  rw [h1, h2, hs, loopResult_scanAll]
  cases scanAll db.DB.rows <;> simp

theorem getTasks_ok_iff (f : Faults) (db : dbHandler) (hq : f.queryErr = Option.none)
    (hs : f.stepErr = Option.none) (ts : List task) :
    ((getTasks f db).err = Option.none ∧ (getTasks f db).tasks = ts) ↔
      scanAll db.DB.rows = Except.ok ts := by
  have h := getTasks_scanAll f db hq hs
  cases hsc : scanAll db.DB.rows with
  | error err =>
    rw [hsc] at h
    simp only [Prod.mk.injEq] at h
    simp [h.2]
  | ok us =>
    rw [hsc] at h
    simp only [Prod.mk.injEq] at h
    simp [h.1, h.2]

theorem scanRow_id (r : Row) (t : task) (h : scanRow r = Except.ok t) : t.id = r.id := by
  unfold scanRow at h
  split at h
  · cases h
  · split at h
    · cases h
    · split at h
      · cases h
      · cases h; rfl

theorem scanAll_append (l₁ l₂ : List Row) (ts₁ ts₂ : List task)
    (h₁ : scanAll l₁ = Except.ok ts₁) (h₂ : scanAll l₂ = Except.ok ts₂) :
    scanAll (l₁ ++ l₂) = Except.ok (ts₁ ++ ts₂) := by
  induction l₁ generalizing ts₁ with
  | nil =>
    simp only [scanAll, Except.ok.injEq] at h₁
    subst h₁
    simpa using h₂
  | cons r rest ih =>
    simp only [scanAll, List.cons_append] at h₁ ⊢
    cases hr : scanRow r with
    | error err => simp [hr] at h₁
    | ok t =>
      cases hs : scanAll rest with
      | error err => simp [hr, hs] at h₁
      | ok us =>
        simp only [hr, hs, Except.ok.injEq] at h₁
        subst h₁
        simp [ih us hs]

theorem scanAll_filter (X : Int) (l : List Row) (ts : List task)
    (h : scanAll l = Except.ok ts) :
    scanAll (l.filter fun r => decide (r.id ≠ X)) =
      Except.ok (ts.filter fun t => decide (t.id ≠ X)) := by
  induction l generalizing ts with
  | nil =>
    simp only [scanAll, Except.ok.injEq] at h
    subst h
    simp [scanAll]
  | cons r rest ih =>
    simp only [scanAll] at h
    cases hr : scanRow r with
    | error err => simp [hr] at h
    | ok t =>
      cases hs : scanAll rest with
      | error err => simp [hr, hs] at h
      | ok us =>
        simp only [hr, hs, Except.ok.injEq] at h
        subst h
        have hid := scanRow_id r t hr
        have ih2 := ih us hs
        simp only [ne_eq, decide_not] at ih2 ⊢
        by_cases hx : r.id = X
        · have : t.id = X := by rw [hid, hx]
          simp [List.filter_cons, hx, this, ih2]
        · have : ¬ t.id = X := by rw [hid]; exact hx
          simp [List.filter_cons, hx, this, scanAll, hr, ih2]

/-! ## Lemmas on the statements -/

theorem maxRowid_none (l : List Row) (h : maxRowid l = Option.none) : l = [] := by
  cases l with
  | nil => rfl
  | cons r rs =>
    simp only [maxRowid] at h
    split at h <;> cases h

theorem maxRowid_ge (l : List Row) (m : Int) (h : maxRowid l = some m) : ∀ r ∈ l, r.id ≤ m := by
  induction l generalizing m with
  | nil => intro r hr; cases hr
  | cons a rs ih =>
    intro r hr
    simp only [maxRowid] at h
    cases hm : maxRowid rs with
    | none =>
      have hnil := maxRowid_none rs hm
      subst hnil
      simp only [hm, Option.some.injEq] at h
      simp only [List.mem_singleton] at hr
      subst hr
      omega
    | some m' =>
      simp only [hm, Option.some.injEq] at h
      rcases List.mem_cons.mp hr with rfl | hr'
      · have := le_max_left r.id m'
        omega
      · have h1 := ih m' hm r hr'
        have h2 := le_max_right a.id m'
        omega

/-- The rowid picked for a new row is larger than the sequence counter and than the rowid
of every row of the table. -/
theorem newRowid_gt (db : DB) (v : Int) (h : newRowid db = some v) :
    db.seq < v ∧ ∀ r ∈ db.rows, r.id < v := by
  unfold newRowid at h
  cases hm : maxRowid db.rows with
  | none =>
    have hnil := maxRowid_none db.rows hm
    simp only [hm] at h
    split at h
    · cases h
    · split at h
      · simp only [Option.some.injEq] at h
        refine ⟨by omega, ?_⟩
        intro r hr
        rw [hnil] at hr
        cases hr
      · simp only [Option.some.injEq] at h
        refine ⟨by omega, ?_⟩
        intro r hr
        rw [hnil] at hr
        cases hr
  | some m =>
    have hge := maxRowid_ge db.rows m hm
    simp only [hm] at h
    by_cases hmax : m ≥ MAX_ROWID
    · simp [hmax] at h
    · by_cases hseq : db.seq = MAX_ROWID
      · simp [hmax, hseq] at h
      · by_cases hlt : m + 1 < db.seq + 1
        · simp only [hmax, hseq, hlt, ↓reduceIte, Option.some.injEq] at h
          refine ⟨by omega, ?_⟩
          intro r hr
          have := hge r hr
          omega
        · simp only [hmax, hseq, hlt, ↓reduceIte, Option.some.injEq] at h
          refine ⟨by omega, ?_⟩
          intro r hr
          have := hge r hr
          omega

/-- When `insertTask` returns no error, the statement picked a rowid `v` and the handler
afterwards holds the earlier rows followed by the new row, with `v` as sequence counter. -/
theorem insertTask_ok (f : Faults) (db : dbHandler) (T : task)
    (h : (insertTask f db T).1 = Option.none) :
    ∃ v : Int, newRowid db.DB = some v ∧
      (insertTask f db T).2 =
        ⟨{ rows := db.DB.rows ++
            [Row.mk v (Value.text T.title) (Value.text T.desc) (Value.integer T.status)],
           seq := v }⟩ := by
  unfold insertTask at h ⊢
  cases hp : f.prepareErr with
  | some e => simp [hp] at h
  | none =>
    cases he : f.execErr with
    | some e => simp [hp, Exec, he] at h
    | none =>
      cases hn : newRowid db.DB with
      | none => simp [hp, Exec, he, sqlInsert, hn] at h
      | some v => exact ⟨v, rfl, by simp [Exec, he, sqlInsert, hn]⟩

/-- When `insertTask` returns an error, the handler is as before. -/
theorem insertTask_err (f : Faults) (db : dbHandler) (T : task)
    (h : (insertTask f db T).1 ≠ Option.none) : (insertTask f db T).2 = db := by
  unfold insertTask at h ⊢
  cases hp : f.prepareErr with
  | some e => simp
  | none =>
    cases hx : Exec f (sqlInsert db.DB T.title T.desc T.status) with
    | error e => simp
    | ok d => simp [hp, hx] at h

theorem updateTask_snd (f : Faults) (db : dbHandler) (T : task) :
    (updateTask f db T).2 = db ∨
      ((updateTask f db T).1 = Option.none ∧
        (updateTask f db T).2 = ⟨sqlUpdate db.DB T.title T.desc T.status T.id⟩) := by
  unfold updateTask
  cases hp : f.prepareErr with
  | some e => left; simp
  | none =>
    cases he : f.execErr with
    | some e => left; simp [Exec, he]
    | none => right; simp [Exec, he]

theorem updateTask_ok (f : Faults) (db : dbHandler) (T : task)
    (h : (updateTask f db T).1 = Option.none) :
    (updateTask f db T).2 = ⟨sqlUpdate db.DB T.title T.desc T.status T.id⟩ := by
  unfold updateTask at h ⊢
  cases hp : f.prepareErr with
  | some e => simp [hp] at h
  | none =>
    cases he : f.execErr with
    | some e => simp [hp, Exec, he] at h
    | none => simp [Exec, he]

theorem deleteTask_snd (f : Faults) (db : dbHandler) (X : Int) :
    (deleteTask f db X).2 = db ∨
      ((deleteTask f db X).1 = Option.none ∧ (deleteTask f db X).2 = ⟨sqlDelete db.DB X⟩) := by
  unfold deleteTask
  cases hp : f.prepareErr with
  | some e => left; simp
  | none =>
    cases he : f.execErr with
    | some e => left; simp [Exec, he]
    | none => right; simp [Exec, he]

theorem sqlUpdate_of_absent (db : DB) (title desc : String) (status id : Int)
    (h : ∀ r ∈ db.rows, r.id ≠ id) : sqlUpdate db title desc status id = db := by
  unfold sqlUpdate
  have : db.rows.map (fun r =>
      if r.id = id then Row.mk r.id (Value.text title) (Value.text desc) (Value.integer status)
      else r) = db.rows := by
    conv_rhs => rw [← List.map_id db.rows]
    apply List.map_congr_left
    intro r hr
    simp [h r hr]
  rw [this]

theorem sqlUpdate_idem (db : DB) (title desc : String) (status id : Int) :
    sqlUpdate (sqlUpdate db title desc status id) title desc status id =
      sqlUpdate db title desc status id := by
  unfold sqlUpdate
  simp only [List.map_map, DB.mk.injEq, and_true]
  apply List.map_congr_left
  intro r _
  by_cases hr : r.id = id <;> simp [hr]

theorem sqlDelete_of_absent (db : DB) (id : Int) (h : ∀ r ∈ db.rows, r.id ≠ id) :
    sqlDelete db id = db := by
  unfold sqlDelete
  have : db.rows.filter (fun r => decide (r.id ≠ id)) = db.rows := by
    rw [List.filter_eq_self]
    intro r hr
    simpa using h r hr
  rw [this]

/-! ## `insertTask`, `deleteTask`, `updateTask` -/

/-- C1. For every handler `db`, every task `T` and every outcome of the external calls:
when `insertTask` returns no error, the table holds the rows it held before, unchanged and
in the same order, followed by exactly one new row whose title, description and status are
those of `T`; the id of that row is the rowid SQLite picked from the table (larger than the
id of every earlier row), and `T.id` plays no part: the call does the same for every value
of `T.id`.  A following `getTasks` whose cursor runs through returns the tasks it returned
before followed by the task of the new row. -/
theorem C1_insertTask_adds_one_row (f : Faults) (db : dbHandler) (T : task)
    (h : (insertTask f db T).1 = Option.none) :
    ∃ id : Int,
      newRowid db.DB = some id ∧
      (∀ r ∈ db.DB.rows, r.id < id) ∧
      (insertTask f db T).2.DB.rows =
        db.DB.rows ++
          [Row.mk id (Value.text T.title) (Value.text T.desc) (Value.integer T.status)] ∧
      (∀ j : Int, insertTask f db { T with id := j } = insertTask f db T) ∧
      (∀ (g : Faults) (ts : List task), g.queryErr = Option.none → g.stepErr = Option.none →
        (getTasks g db).err = Option.none → (getTasks g db).tasks = ts →
        (getTasks g (insertTask f db T).2).err = Option.none ∧
        (getTasks g (insertTask f db T).2).tasks = ts ++ [task.mk id T.title T.desc T.status]) := by
  obtain ⟨v, hv, hdb⟩ := insertTask_ok f db T h
  refine ⟨v, hv, (newRowid_gt db.DB v hv).2, by rw [hdb], fun j => rfl, ?_⟩
  intro g ts hq hs herr hts
  have hbefore := (getTasks_ok_iff g db hq hs ts).mp ⟨herr, hts⟩
  have hnew : scanAll
      [Row.mk v (Value.text T.title) (Value.text T.desc) (Value.integer T.status)] =
      Except.ok [task.mk v T.title T.desc T.status] := by
    simp [scanAll, scanRow, scanString, scanInt]
  have hafter := scanAll_append _ _ _ _ hbefore hnew
  have := (getTasks_ok_iff g (insertTask f db T).2 hq hs
    (ts ++ [task.mk v T.title T.desc T.status])).mpr (by rw [hdb]; exact hafter)
  exact this

/-- C2. For every handler `db` and every id `X`, in a run in which no external call fails:
`deleteTask` returns no error, and afterwards the table holds exactly the earlier rows
whose id differs from `X`, unchanged and in the same order, with the sequence counter as it
was; no row with id `X` remains; when no row had id `X` the handler is exactly as it was.
A following `getTasks` whose cursor runs through returns the tasks it returned before
without those of id `X`.  Over all runs, `deleteTask` returns an error exactly when
`db.Prepare` or `stmt.Exec` fails, whatever the table holds and whatever `X` is. -/
theorem C2_deleteTask_removes_id (db : dbHandler) (X : Int) :
    (deleteTask Faults.healthy db X).1 = Option.none ∧
    (deleteTask Faults.healthy db X).2.DB.rows =
      db.DB.rows.filter (fun r => decide (r.id ≠ X)) ∧
    (deleteTask Faults.healthy db X).2.DB.seq = db.DB.seq ∧
    (∀ r ∈ (deleteTask Faults.healthy db X).2.DB.rows, r.id ≠ X) ∧
    ((∀ r ∈ db.DB.rows, r.id ≠ X) → (deleteTask Faults.healthy db X).2 = db) ∧
    (∀ (g : Faults) (ts : List task), g.queryErr = Option.none → g.stepErr = Option.none →
      (getTasks g db).err = Option.none → (getTasks g db).tasks = ts →
      (getTasks g (deleteTask Faults.healthy db X).2).err = Option.none ∧
      (getTasks g (deleteTask Faults.healthy db X).2).tasks =
        ts.filter (fun t => decide (t.id ≠ X))) ∧
    (∀ f : Faults, (deleteTask f db X).1 = Option.none ↔
      (f.prepareErr = Option.none ∧ f.execErr = Option.none)) := by
  have hdel : deleteTask Faults.healthy db X = (Option.none, ⟨sqlDelete db.DB X⟩) := rfl
  rw [hdel]
  refine ⟨rfl, rfl, rfl, ?_, ?_, ?_, ?_⟩
  rotate_right
  · intro f
    unfold deleteTask
    cases hp : f.prepareErr with
    | some e => simp
    | none => cases he : f.execErr <;> simp [Exec, he]
  · intro r hr
    simp only [sqlDelete, List.mem_filter, decide_eq_true_eq] at hr
    exact hr.2
  · intro habs
    show dbHandler.mk (sqlDelete db.DB X) = db
    rw [sqlDelete_of_absent db.DB X habs]
  · intro g ts hq hs herr hts
    have hbefore := (getTasks_ok_iff g db hq hs ts).mp ⟨herr, hts⟩
    exact (getTasks_ok_iff g ⟨sqlDelete db.DB X⟩ hq hs _).mpr (scanAll_filter X _ _ hbefore)

/-- C3. For every handler `db`, every task `T` and every outcome of the external calls:
when `updateTask` returns no error, the table has as many rows as before and the same
sequence counter; at every position the row is the earlier row of that position, with
title, description and status replaced by those of `T` and its id kept when its id is
`T.id`, and unchanged otherwise; when no row has id `T.id` the handler is exactly as it
was.  The absence of a row with id `T.id` does not make the call fail: in a run in which
no external call fails, it returns no error and leaves the handler as it was. -/
theorem C3_updateTask_replaces_row (f : Faults) (db : dbHandler) (T : task)
    (h : (updateTask f db T).1 = Option.none) :
    (updateTask f db T).2.DB.rows.length = db.DB.rows.length ∧
    (updateTask f db T).2.DB.seq = db.DB.seq ∧
    (∀ i : Nat, (updateTask f db T).2.DB.rows[i]? =
      (db.DB.rows[i]?).map (fun r =>
        if r.id = T.id then
          Row.mk r.id (Value.text T.title) (Value.text T.desc) (Value.integer T.status)
        else r)) ∧
    ((∀ r ∈ db.DB.rows, r.id ≠ T.id) → (updateTask f db T).2 = db) ∧
    ((∀ r ∈ db.DB.rows, r.id ≠ T.id) → updateTask Faults.healthy db T = (Option.none, db)) := by
  have hup := updateTask_ok f db T h
  rw [hup]
  refine ⟨by simp [sqlUpdate], rfl, ?_, ?_, ?_⟩
  · intro i
    simp [sqlUpdate, List.getElem?_map]
  · intro habs
    rw [sqlUpdate_of_absent db.DB _ _ _ _ habs]
  · intro habs
    have h2 : updateTask Faults.healthy db T =
        (Option.none, ⟨sqlUpdate db.DB T.title T.desc T.status T.id⟩) := rfl
    rw [h2, sqlUpdate_of_absent db.DB _ _ _ _ habs]

/-- C8. For every handler `db` and every task `T`, in runs in which no external call fails:
a second `updateTask(T)` returns no error and leaves the handler exactly as the first call
left it.  Whatever the external calls of the second call do, it does not change the
handler the first call left. -/
theorem C8_updateTask_twice (db : dbHandler) (T : task) :
    updateTask Faults.healthy (updateTask Faults.healthy db T).2 T =
      (Option.none, (updateTask Faults.healthy db T).2) ∧
    (∀ f : Faults, (updateTask f (updateTask Faults.healthy db T).2 T).2 =
      (updateTask Faults.healthy db T).2) := by
  have h1 : ∀ d : dbHandler, updateTask Faults.healthy d T =
      (Option.none, ⟨sqlUpdate d.DB T.title T.desc T.status T.id⟩) := fun _ => rfl
  constructor
  · rw [h1 db, h1]
    simp only [sqlUpdate_idem]
  · intro f
    rw [h1 db]
    rcases updateTask_snd f ⟨sqlUpdate db.DB T.title T.desc T.status T.id⟩ T with h | ⟨_, h⟩
    · exact h
    · rw [h]
      simp only [sqlUpdate_idem]

/-! ## `getTasks` -/

/-- C4, at a failing input.  The table holds two rows, the step after the first delivered
row fails (`rows.Next()` returns false and `rows.Err()` holds `database is locked`):
`getTasks` returns no error and a slice with the first task only, although the error is
recorded in the cursor it leaves behind. -/
theorem C4_getTasks_step_failure_drops_rows :
    twoRows.DB.rows.length = 2 ∧
    (getTasks stepFailsAfterOne twoRows).err = Option.none ∧
    (getTasks stepFailsAfterOne twoRows).tasks = [task.mk 1 "Buy milk" "2%" 0] ∧
    (getTasks stepFailsAfterOne twoRows).db = twoRows ∧
    (getTasks stepFailsAfterOne twoRows).rows.map Rows.lasterr =
      some (some (Err.base "database is locked")) := by
  obtain ⟨h1, h2, _⟩ := getTasks_of_query stepFailsAfterOne twoRows rfl
  refine ⟨rfl, ?_, ?_, ?_, ?_⟩
  · rw [h2]
    simp [loopResult, stepFailsAfterOne, Faults.healthy, twoRows, scanRow, scanString, scanInt]
  · rw [h1]
    simp [loopResult, stepFailsAfterOne, Faults.healthy, twoRows, scanRow, scanString, scanInt]
  · simp only [getTasks]
    split <;> rfl
  · have e1 := getTasks.loop_next
      { pending := twoRows.DB.rows, delivered := 0, stepErr := stepFailsAfterOne.stepErr,
        closeErr := stepFailsAfterOne.rowsCloseErr, current := Option.none, closed := false,
        lasterr := Option.none } [] (task.mk 1 "Buy milk" "2%" 0) rfl rfl
    have e2 := getTasks.loop_done
      { pending := twoRows.DB.rows.tail, delivered := 1, stepErr := stepFailsAfterOne.stepErr,
        closeErr := stepFailsAfterOne.rowsCloseErr,
        current := some (Row.mk 1 (Value.text "Buy milk") (Value.text "2%") (Value.integer 0)),
        closed := false, lasterr := Option.none } [task.mk 1 "Buy milk" "2%" 0] rfl
    have e3 : getTasks stepFailsAfterOne twoRows =
        ⟨_, _, some (getTasks.loop
          { pending := twoRows.DB.rows, delivered := 0, stepErr := stepFailsAfterOne.stepErr,
            closeErr := stepFailsAfterOne.rowsCloseErr, current := Option.none, closed := false,
            lasterr := Option.none } []).2.Close.2, twoRows⟩ := rfl
    rw [e3, e1]
    show Option.map Rows.lasterr (some (getTasks.loop _ _).2.Close.2) = _
    erw [e2]
    rfl

theorem scanAll_first_failure (l : List Row)
    (h : ∃ r ∈ l, ∃ e, scanRow r = Except.error e) :
    ∃ pre r post e, l = pre ++ r :: post ∧ (∀ x ∈ pre, ∃ t, scanRow x = Except.ok t) ∧
      scanRow r = Except.error e ∧ scanAll l = Except.error e := by
  induction l with
  | nil =>
    obtain ⟨r, hr, _⟩ := h
    cases hr
  | cons a rest ih =>
    cases ha : scanRow a with
    | error e =>
      exact ⟨[], a, rest, e, rfl, (by intro x hx; cases hx), ha, (by simp [scanAll, ha])⟩
    | ok t =>
      have h2 : ∃ r ∈ rest, ∃ e, scanRow r = Except.error e := by
        obtain ⟨r, hr, e, he⟩ := h
        rcases List.mem_cons.mp hr with rfl | hr'
        · rw [ha] at he
          cases he
        · exact ⟨r, hr', e, he⟩
      obtain ⟨pre, r, post, e, hl, hpre, hr, hall⟩ := ih h2
      refine ⟨a :: pre, r, post, e, by rw [hl]; rfl, ?_, hr, by simp [scanAll, ha, hall]⟩
      intro x hx
      rcases List.mem_cons.mp hx with rfl | hx'
      · exact ⟨t, ha⟩
      · exact hpre x hx'

/-- C10. When `db.Query` returns a cursor, every step of the cursor succeeds and some row
of the table cannot be decoded by `Scan`: `getTasks` returns the nil slice and an error
that wraps the `Scan` failure of the first such row (every row before it decodes), and the
cursor it leaves behind is closed.  The cursor is closed as well on every other return
that follows a successful `db.Query`, the successful return included. -/
theorem C10_getTasks_scan_failure (f : Faults) (db : dbHandler)
    (hq : f.queryErr = Option.none) (hs : f.stepErr = Option.none)
    (hbad : ∃ r ∈ db.DB.rows, ∃ e, scanRow r = Except.error e) :
    (∃ pre r post e, db.DB.rows = pre ++ r :: post ∧
      (∀ x ∈ pre, ∃ t, scanRow x = Except.ok t) ∧
      scanRow r = Except.error e ∧
      (getTasks f db).err = some (Err.wrap "rows.Scan" e) ∧
      (Err.wrap "rows.Scan" e).carries e = true ∧
      (getTasks f db).tasks = []) ∧
    (∃ rs, (getTasks f db).rows = some rs ∧ rs.closed = true) ∧
    (∀ (g : Faults) (d : dbHandler), g.queryErr = Option.none →
      ∃ rs, (getTasks g d).rows = some rs ∧ rs.closed = true) := by
  obtain ⟨pre, r, post, e, hl, hpre, hr, hall⟩ := scanAll_first_failure db.DB.rows hbad
  have h := getTasks_scanAll f db hq hs
  rw [hall] at h
  simp only [Prod.mk.injEq] at h
  refine ⟨⟨pre, r, post, e, hl, hpre, hr, ?_, ?_, h.1⟩, (getTasks_of_query f db hq).2.2, ?_⟩
  · rw [h.2]; rfl
  · cases e <;> simp [Err.carries, Err.chain]
  · intro g d hg
    exact (getTasks_of_query g d hg).2.2

/-! ## `openDB` -/

theorem newDBHandler_fresh (f : Faults) (db : dbHandler)
    (h : (newDBHandler f Option.none).handler = some db) : db = ⟨{ rows := [], seq := 0 }⟩ := by
  unfold newDBHandler at h
  cases he : (openDB f Option.none).err with
  | some e => simp [he] at h
  | none =>
    simp only [he] at h
    unfold openDB at h he
    cases hu : f.userErr with
    | some e => simp [hu] at he
    | none =>
      cases hm : f.mkdirErr with
      | some e => simp [hu, hm] at he
      | none =>
        cases ho : f.openErr with
        | some e => simp [hu, hm, ho] at he
        | none =>
          cases hx : f.execErr with
          | some e =>
            cases hc : f.closeErr <;> simp [hu, hm, ho, Exec, hx, hc] at he
          | none =>
            simp [hu, hm, ho, Exec, hx, sqlCreateTable] at h
            exact h.symm

/-- C6. When `newDBHandler` (through `openDB`) returns a handler for a database file that
had no table `tasks` before, `getTasks` on that handler returns an empty slice and no error
in a run in which no external call fails, and more generally in every run in which
`db.Query` returns a cursor. -/
theorem C6_fresh_store_reads_empty (f : Faults) (db : dbHandler)
    (h : (newDBHandler f Option.none).handler = some db) :
    ((getTasks Faults.healthy db).tasks = [] ∧ (getTasks Faults.healthy db).err = Option.none) ∧
    (∀ g : Faults, g.queryErr = Option.none →
      (getTasks g db).tasks = [] ∧ (getTasks g db).err = Option.none) := by
  have hdb := newDBHandler_fresh f db h
  subst hdb
  have key : ∀ g : Faults, g.queryErr = Option.none →
      (getTasks g ⟨{ rows := [], seq := 0 }⟩).tasks = [] ∧
      (getTasks g ⟨{ rows := [], seq := 0 }⟩).err = Option.none := by
    intro g hg
    obtain ⟨h1, h2, _⟩ := getTasks_of_query g ⟨{ rows := [], seq := 0 }⟩ hg
    rw [h1, h2]
    simp [loopResult]
  exact ⟨key Faults.healthy rfl, key⟩

/-- C7. For every database file in which table `tasks` exists, with rows and sequence
counter `db`: `openDB` in a run in which no external call fails returns a handle and no
error, and the table is `db` afterwards, rows and sequence counter as they were; whatever
the external calls do, the table is `db` after `openDB`; and `getTasks` on the handler
`newDBHandler` returns is `getTasks` on the handler of the first open. -/
theorem C7_openDB_again_keeps_table (db : DB) :
    openDB Faults.healthy (some db) = ⟨some db, Option.none, some db, Handle.opened⟩ ∧
    (newDBHandler Faults.healthy (some db)).handler = some ⟨db⟩ ∧
    (newDBHandler Faults.healthy (some db)).err = Option.none ∧
    (∀ f : Faults, (openDB f (some db)).file = some db) ∧
    (∀ g : Faults, (newDBHandler Faults.healthy (some db)).handler.map (getTasks g) =
      some (getTasks g ⟨db⟩)) := by
  refine ⟨rfl, rfl, rfl, ?_, fun g => rfl⟩
  intro f
  unfold openDB
  cases hu : f.userErr with
  | some e => rfl
  | none =>
    cases hm : f.mkdirErr with
    | some e => rfl
    | none =>
      cases ho : f.openErr with
      | some e => rfl
      | none =>
        cases hx : f.execErr with
        | some e => cases hc : f.closeErr <;> simp [Exec, hx, hc]
        | none => simp [Exec, hx, sqlCreateTable]

/-- C9, at failing inputs.  In every run of `openDB` in which the directory is made, the
handle is opened, the schema statement fails with an error `e` and `db.Close` succeeds,
the handle is closed and no handle is returned, but the returned error is
`fmt.Errorf("could not exec db: %w", err)` with the nil `err` of `db.Close()`: it wraps
nothing, and `newDBHandler` returns it wrapped once more; for `e` the error
`disk I/O error`, neither returned error carries `e`. -/
theorem C9_openDB_schema_failure_drops_cause (e : Err) (file : Option DB) :
    (openDB (schemaFails e) file).handle = Handle.closed ∧
    (openDB (schemaFails e) file).db = Option.none ∧
    (openDB (schemaFails e) file).err = some (Err.wrapNil "could not exec db") ∧
    (Err.wrapNil "could not exec db").Unwrap = Option.none ∧
    (newDBHandler (schemaFails e) file).err =
      some (Err.wrap "OpenDB" (Err.wrapNil "could not exec db")) ∧
    (Err.wrapNil "could not exec db").carries (Err.base "disk I/O error") = false ∧
    (Err.wrap "OpenDB" (Err.wrapNil "could not exec db")).carries (Err.base "disk I/O error")
      = false := by
  refine ⟨rfl, rfl, rfl, rfl, rfl, by decide, by decide⟩

/-! ## Identifiers along a run -/

theorem filter_new_self (ids : List Int) :
    ids.filter (fun i => decide (i ∉ ids)) = [] := by
  rw [List.filter_eq_nil_iff]
  intro a ha
  simp [ha]

theorem filter_new_append (ids : List Int) (v : Int) (hv : v ∉ ids) :
    (ids ++ [v]).filter (fun i => decide (i ∉ ids)) = [v] := by
  rw [List.filter_append, filter_new_self]
  simp [hv]

/-- The trace after a call of `insertTask` that returns no error: one row is added, and its
id is the one id given out by the call. -/
theorem Trace.step_insert_ok (s : Trace) (f : Faults) (T : task)
    (h : (insertTask f s.db T).1 = Option.none) :
    ∃ v : Int, newRowid s.db.DB = some v ∧
      s.step (Call.insert f T) =
        ⟨⟨{ rows := s.db.DB.rows ++
              [Row.mk v (Value.text T.title) (Value.text T.desc) (Value.integer T.status)],
            seq := v }⟩, s.assigned ++ [v]⟩ := by
  obtain ⟨v, hv, hdb⟩ := insertTask_ok f s.db T h
  refine ⟨v, hv, ?_⟩
  have hnot : v ∉ s.db.DB.rows.map Row.id := by
    intro hmem
    obtain ⟨r, hr, hrv⟩ := List.mem_map.mp hmem
    have := (newRowid_gt s.db.DB v hv).2 r hr
    omega
  simp only [Trace.step, hdb, List.map_append, List.map_cons, List.map_nil]
  rw [filter_new_append _ _ hnot]

theorem Trace.step_insert_err (s : Trace) (f : Faults) (T : task)
    (h : (insertTask f s.db T).1 ≠ Option.none) : s.step (Call.insert f T) = s := by
  have hdb := insertTask_err f s.db T h
  simp only [Trace.step, hdb, filter_new_self, List.append_nil]

theorem Trace.Inv_step (s : Trace) (c : Call) (hs : s.Inv) : (s.step c).Inv := by
  obtain ⟨hseq, hsorted, hrows, hasg, hle⟩ := hs
  cases c with
  | insert f T =>
    by_cases h : (insertTask f s.db T).1 = Option.none
    · obtain ⟨v, hv, hstep⟩ := Trace.step_insert_ok s f T h
      obtain ⟨hgt, hgtr⟩ := newRowid_gt s.db.DB v hv
      rw [hstep]
      refine ⟨by simp only; omega, ?_, ?_, ?_, ?_⟩
      · simp only [List.map_append, List.map_cons, List.map_nil]
        rw [List.pairwise_append]
        refine ⟨hsorted, List.pairwise_singleton _ _, ?_⟩
        intro a ha b hb
        obtain ⟨r, hr, rfl⟩ := List.mem_map.mp ha
        simp only [List.mem_singleton] at hb
        subst hb
        exact hgtr r hr
      · intro r hr
        simp only [List.mem_append, List.mem_singleton] at hr ⊢
        rcases hr with hr | rfl
        · exact ⟨(hrows r hr).1, Or.inl (hrows r hr).2⟩
        · exact ⟨by simp only; omega, Or.inr rfl⟩
      · rw [List.pairwise_append]
        refine ⟨hasg, List.pairwise_singleton _ _, ?_⟩
        intro a ha b hb
        simp only [List.mem_singleton] at hb
        subst hb
        have := (hle a ha).2
        omega
      · intro a ha
        simp only [List.mem_append, List.mem_singleton] at ha
        rcases ha with ha | rfl
        · have := hle a ha
          exact ⟨this.1, by simp only; omega⟩
        · exact ⟨by omega, le_refl _⟩
    · rw [Trace.step_insert_err s f T h]
      exact ⟨hseq, hsorted, hrows, hasg, hle⟩
  | update f T =>
    rcases updateTask_snd f s.db T with h | ⟨_, h⟩
    · simp only [Trace.step, h]
      exact ⟨hseq, hsorted, hrows, hasg, hle⟩
    · have hmap : (sqlUpdate s.db.DB T.title T.desc T.status T.id).rows.map Row.id =
          s.db.DB.rows.map Row.id := by
        simp only [sqlUpdate, List.map_map]
        apply List.map_congr_left
        intro r _
        by_cases hr : r.id = T.id <;> simp [hr]
      simp only [Trace.step, h]
      refine ⟨hseq, by rw [hmap]; exact hsorted, ?_, hasg, hle⟩
      intro r hr
      simp only [sqlUpdate, List.mem_map] at hr
      obtain ⟨r0, hr0, hrr⟩ := hr
      by_cases hid : r0.id = T.id
      · simp only [hid, ↓reduceIte] at hrr
        subst hrr
        simpa [hid] using hrows r0 hr0
      · simp only [hid, ↓reduceIte] at hrr
        subst hrr
        exact hrows r0 hr0
  | delete f X =>
    rcases deleteTask_snd f s.db X with h | ⟨_, h⟩
    · simp only [Trace.step, h]
      exact ⟨hseq, hsorted, hrows, hasg, hle⟩
    · simp only [Trace.step, h]
      refine ⟨hseq, ?_, ?_, hasg, hle⟩
      · exact hsorted.sublist ((List.filter_sublist _).map Row.id)
      · intro r hr
        simp only [sqlDelete, List.mem_filter] at hr
        exact hrows r hr.1

theorem run_append (db0 : dbHandler) (calls : List Call) (c : Call) :
    run db0 (calls ++ [c]) = (run db0 calls).step c := by
  simp [run, List.foldl_append]

theorem run_Inv (calls : List Call) : (run emptyHandler calls).Inv := by
  induction calls using List.reverseRecOn with
  | nil =>
    simp [run, Trace.Inv, emptyHandler]
  | append_singleton cs c ih =>
    rw [run_append]
    exact Trace.Inv_step _ c ih

/-- C5. For every handler `db0` that `newDBHandler` returns for a database file without a
table `tasks`, and every sequence of `insertTask`, `updateTask` and `deleteTask` calls made
on it, whatever their external calls do: the ids of the rows are pairwise distinct and not
zero, every row id is among the ids the table has given out, and the ids given out, listed
in the order of the calls, increase strictly.  A further `insertTask` that returns no error
adds one row, and its id is larger than every id given out before, those of deleted rows
included. -/
theorem C5_ids_distinct_never_reused (f : Faults) (db0 : dbHandler) (calls : List Call)
    (h : (newDBHandler f Option.none).handler = some db0) :
    ((run db0 calls).db.DB.rows.map Row.id).Nodup ∧
    (∀ r ∈ (run db0 calls).db.DB.rows, r.id ≠ 0) ∧
    (∀ r ∈ (run db0 calls).db.DB.rows, r.id ∈ (run db0 calls).assigned) ∧
    (run db0 calls).assigned.Pairwise (· < ·) ∧
    (∀ (g : Faults) (T : task), (insertTask g (run db0 calls).db T).1 = Option.none →
      ∃ id : Int,
        (insertTask g (run db0 calls).db T).2.DB.rows =
          (run db0 calls).db.DB.rows ++
            [Row.mk id (Value.text T.title) (Value.text T.desc) (Value.integer T.status)] ∧
        (run db0 (calls ++ [Call.insert g T])).assigned = (run db0 calls).assigned ++ [id] ∧
        (∀ a ∈ (run db0 calls).assigned, a < id)) := by
  have hdb := newDBHandler_fresh f db0 h
  have hdb0 : db0 = emptyHandler := hdb
  subst hdb0
  have hinv := run_Inv calls
  obtain ⟨hseq, hsorted, hrows, hasg, hle⟩ := hinv
  refine ⟨?_, ?_, ?_, hasg, ?_⟩
  · exact hsorted.imp (fun hab => ne_of_lt hab)
  · intro r hr
    have := (hrows r hr).1
    omega
  · intro r hr
    exact (hrows r hr).2
  · intro g T hg
    obtain ⟨v, hv, hstep⟩ := Trace.step_insert_ok (run emptyHandler calls) g T hg
    obtain ⟨v2, hv2, hdb2⟩ := insertTask_ok g (run emptyHandler calls).db T hg
    have hvv : v2 = v := by rw [hv] at hv2; exact (Option.some.inj hv2).symm
    subst hvv
    refine ⟨v2, by rw [hdb2], ?_, ?_⟩
    · rw [run_append, hstep]
    · intro a ha
      have h1 := (hle a ha).2
      have h2 := (newRowid_gt _ v2 hv).1
      omega

/-! ## Instances at concrete inputs -/

/-- Instance of C1: inserting `milk` (whose `id` field is 0) into the new table succeeds
and leaves one row, with id 1. -/
theorem C1_insertTask_adds_one_row_witness :
    (insertTask Faults.healthy emptyHandler milk).1 = Option.none ∧
    (insertTask Faults.healthy emptyHandler milk).2.DB.rows =
      [Row.mk 1 (Value.text "Buy milk") (Value.text "2%") (Value.integer 0)] := by
  refine ⟨rfl, ?_⟩
  obtain ⟨id, hid, _, hrows, _⟩ :=
    C1_insertTask_adds_one_row Faults.healthy emptyHandler milk rfl
  have h1 : id = 1 := by
    have : newRowid emptyHandler.DB = some 1 := rfl
    rw [this] at hid
    exact (Option.some.inj hid).symm
  rw [hrows, h1]
  rfl

/-- Instance of C3: updating the row of id 2 of `twoRows` succeeds and keeps two rows. -/
theorem C3_updateTask_replaces_row_witness :
    (updateTask Faults.healthy twoRows (task.mk 2 "Call Ann" "today" 2)).1 = Option.none ∧
    (updateTask Faults.healthy twoRows (task.mk 2 "Call Ann" "today" 2)).2.DB.rows.length =
      twoRows.DB.rows.length :=
  ⟨rfl, (C3_updateTask_replaces_row Faults.healthy twoRows (task.mk 2 "Call Ann" "today" 2) rfl).1⟩

/-- Instance of C5: after `sampleCalls` on a new table the row ids are distinct and the ids
given out increase. -/
theorem C5_ids_distinct_never_reused_witness :
    (newDBHandler Faults.healthy Option.none).handler = some emptyHandler ∧
    ((run emptyHandler sampleCalls).db.DB.rows.map Row.id).Nodup ∧
    (run emptyHandler sampleCalls).assigned.Pairwise (· < ·) :=
  ⟨rfl,
    (C5_ids_distinct_never_reused Faults.healthy emptyHandler sampleCalls rfl).1,
    (C5_ids_distinct_never_reused Faults.healthy emptyHandler sampleCalls rfl).2.2.2.1⟩

/-- The run of `sampleCalls`, evaluated: ids 1, 2, 3 are given out, the rows left have ids
1 and 3, and id 2 of the deleted row is not given again. -/
theorem run_sampleCalls :
    (run emptyHandler sampleCalls).assigned = [1, 2, 3] ∧
    (run emptyHandler sampleCalls).db.DB.rows.map Row.id = [1, 3] ∧
    (run emptyHandler sampleCalls).db.DB.seq = 3 := by
  refine ⟨by decide, by decide, by decide⟩

/-- Instance of C6: the handler of a new database file reads as empty. -/
theorem C6_fresh_store_reads_empty_witness :
    (newDBHandler Faults.healthy Option.none).handler = some emptyHandler ∧
    (getTasks Faults.healthy emptyHandler).tasks = [] ∧
    (getTasks Faults.healthy emptyHandler).err = Option.none :=
  ⟨rfl, (C6_fresh_store_reads_empty Faults.healthy emptyHandler rfl).1⟩

/-- Instance of C10: the second row of `nullTitle` has a NULL title; `getTasks` returns no
tasks and an error made by `fmt.Errorf("rows.Scan: %w", err)`, and closes the cursor. -/
theorem C10_getTasks_scan_failure_witness :
    (Faults.healthy.queryErr = Option.none ∧ Faults.healthy.stepErr = Option.none ∧
      scanRow (Row.mk 2 Value.null (Value.text "") (Value.integer 1)) =
        Except.error (Err.wrap "sql: Scan error on column index 1, name title"
          (Err.base "converting NULL to string is unsupported"))) ∧
    (getTasks Faults.healthy nullTitle).tasks = [] ∧
    (∃ e, (getTasks Faults.healthy nullTitle).err = some (Err.wrap "rows.Scan" e)) ∧
    (∃ rs, (getTasks Faults.healthy nullTitle).rows = some rs ∧ rs.closed = true) := by
  have hbad : ∃ r ∈ nullTitle.DB.rows, ∃ e, scanRow r = Except.error e :=
    ⟨Row.mk 2 Value.null (Value.text "") (Value.integer 1), by simp [nullTitle], _, rfl⟩
  obtain ⟨⟨_, _, _, e, _, _, _, herr, _, htasks⟩, hclosed, _⟩ :=
    C10_getTasks_scan_failure Faults.healthy nullTitle rfl rfl hbad
  exact ⟨⟨rfl, rfl, rfl⟩, htasks, ⟨e, herr⟩, hclosed⟩

end Termban
